import Mathlib

/-!
Verification of the rustodon background-job worker module.

Shallow embedding of `src/workers/mod.rs`: the persisted job state machine,
the collector-loop tick, and the completion-callback outcome handling.

The `turnstile` crate (`Worker`, `Job`, `ExecutionContract`) and the
`db::models` methods (`JobRecord::kill`, `JobRecord::drop`) are declared
and called by `src/workers/mod.rs` but their bodies are not part of the
source tree here; those pieces are modelled from the specification and
carry a `Modelled from the spec:` doc comment.
-/

/-- The persisted status enum (`crate::db::types::JobStatus`): `Waiting`,
`Running`, `Dead`. Completion is represented by row deletion, not a status. -/
inductive JobStatus : Type
  | waiting
  | running
  | dead
deriving DecidableEq, Repr

/-- A persisted job row (`crate::db::models::JobRecord`): `id` (i64, unique,
ascending allocation), `kind` (registry lookup key), `data` (serialized
payload, held opaque as a string), `status`. -/
structure JobRecord : Type where
  id : Int
  kind : String
  data : String
  status : JobStatus
deriving DecidableEq, Repr

/-- Modelled from the spec: `turnstile::ExecutionContract`'s panic dimension,
`Fail` (terminal) or `Retry(strategy)` with the strategy left abstract
(represented by a number). -/
inductive PanicBehavior : Type
  | fail
  | retry (strategy : Nat)
deriving DecidableEq, Repr

/-- Modelled from the spec: `turnstile::ExecutionContract`, per-job-type
policy, currently the single `panic` dimension. -/
structure ExecutionContract : Type where
  panic : PanicBehavior
deriving DecidableEq, Repr

/-- Modelled from the spec: `turnstile::Error`, the typed results delivered
to the completion callback (payloads of the variants are not tracked). -/
inductive TError : Type
  | invalidKind
  | deserializeError
  | jobInnerError
  | jobPanicked
deriving DecidableEq, Repr

/-- Modelled from the spec: how one execution of `perform()` ends — normal
return `Ok(())`, a returned logical error, or an abnormal termination
(panic) contained by the pool. -/
inductive PerformOutcome : Type
  | ok
  | innerError
  | panicked
deriving DecidableEq, Repr

/-- Modelled from the spec: the behavior table the Job Registry keeps per
registered kind — whether a payload deserializes, the `should_run`
eligibility predicate, the outcome of `perform()` on a payload, and the
kind's execution contract. -/
structure JobBehavior : Type where
  deser : String → Bool
  should_run : String → Bool
  perform : String → PerformOutcome
  execution_contract : ExecutionContract

/-- Modelled from the spec: `turnstile::Worker`, holding the registry of
kind-name → behavior entries built by `register_job`. -/
structure Worker : Type where
  jobs : List (String × JobBehavior)

/-- Modelled from the spec: registry lookup by kind name. -/
def Worker.lookup (w : Worker) (kind : String) : Option JobBehavior :=
  (w.jobs.find? (fun e => decide (e.1 = kind))).map Prod.snd

/-- Modelled from the spec: `Worker::should_run(kind, data)` deserializes
`data` and evaluates eligibility; fails with `DeserializeError` if `data`
cannot be parsed, `InvalidKind` if `kind` is unregistered. -/
def Worker.should_run (w : Worker) (kind : String) (data : String) :
    Except TError Bool :=
  match w.lookup kind with
  | none => .error .invalidKind
  | some b => if b.deser data then .ok (b.should_run data) else .error .deserializeError

/-- Modelled from the spec: the result the Worker Pool eventually delivers to
the completion callback for an accepted job — `DeserializeError` if the
payload cannot be decoded, otherwise the outcome of `perform()`. -/
def execResult (b : JobBehavior) (data : String) : Except TError Unit :=
  if b.deser data then
    match b.perform data with
    | .ok => .ok ()
    | .innerError => .error .jobInnerError
    | .panicked => .error .jobPanicked
  else .error .deserializeError

/-- Modelled from the spec: `Worker::job_tick(kind, data, on_complete)` fails
synchronously with `InvalidKind` if `kind` is unregistered (a submission
failure); otherwise the job is accepted and the inner value is the result
the callback will receive, paired with the kind's execution contract. -/
def Worker.job_tick (w : Worker) (kind : String) (data : String) :
    Except TError (Except TError Unit × ExecutionContract) :=
  match w.lookup kind with
  | none => .error .invalidKind
  | some b => .ok (execResult b data, b.execution_contract)

/-- `BATCH_SIZE` from the source (i64, value 10). -/
def BATCH_SIZE : Int := 10

/-- The fetch step of the tick: the diesel query
`jobs.filter(status.eq(Waiting)).limit(BATCH_SIZE).order(id.asc()).load`,
over a store held as a list of rows. -/
def fetchWaiting (db : List JobRecord) : List JobRecord :=
  (((db.filter (fun r => decide (r.status = JobStatus.waiting))).insertionSort
      (fun a b => a.id ≤ b.id)).take BATCH_SIZE.toNat)

/-- A diesel bulk update `update(jobs).filter(id.eq_any(ids)).set(status.eq(s))`:
every row whose id is in `ids` gets status `s`, all other rows unchanged. -/
def setStatus (db : List JobRecord) (ids : List Int) (s : JobStatus) :
    List JobRecord :=
  db.map (fun r => if r.id ∈ ids then { r with status := s } else r)

/-- Modelled from the spec: `JobRecord::kill` — transition this record
(by id) to terminal `Dead`. -/
def JobRecord.kill (j : JobRecord) (db : List JobRecord) : List JobRecord :=
  db.map (fun r => if r.id = j.id then { r with status := JobStatus.dead } else r)

/-- Modelled from the spec: `JobRecord::drop` — delete this record (by id)
from the store; absence of the row signals completion. -/
def JobRecord.drop (j : JobRecord) (db : List JobRecord) : List JobRecord :=
  db.filter (fun r => decide (r.id ≠ j.id))

/-- True when `Worker::should_run` returns an `Err` for this record: the
source calls `.expect(..)` on that result inside the eligibility filter, so
an `Err` panics the `job_collector` thread. -/
def shouldRunErrs (w : Worker) (r : JobRecord) : Bool :=
  match w.should_run r.kind r.data with
  | .error _ => true
  | .ok _ => false

/-- The eligibility predicate of the tick's filter step: `Worker::should_run`
returned `Ok(true)`. -/
def runnable (w : Worker) (r : JobRecord) : Bool :=
  match w.should_run r.kind r.data with
  | .ok b => b
  | .error _ => false

/-- True when `Worker::job_tick` rejects the record synchronously (the outer
`if let Err` branch of the submit loop, pushing onto `failed_to_submit`). -/
def submitFails (w : Worker) (r : JobRecord) : Bool :=
  match w.job_tick r.kind r.data with
  | .error _ => true
  | .ok _ => false

/-- Ids claimed by the tick: the fetched records passing the `should_run`
filter, bulk-updated `Waiting → Running`. -/
def eligibleIds (w : Worker) (db : List JobRecord) : List Int :=
  ((fetchWaiting db).filter (runnable w)).map (fun r => r.id)

/-- Ids pushed onto `failed_to_submit` during the submit loop. -/
def failedIds (w : Worker) (db : List JobRecord) : List Int :=
  ((fetchWaiting db).filter (submitFails w)).map (fun r => r.id)

/-- The fetched records actually accepted by the pool in the submit loop. -/
def submittedJobs (w : Worker) (db : List JobRecord) : List JobRecord :=
  (fetchWaiting db).filter (fun r => ! submitFails w r)

/-- What one tick of the `job_collector` loop did: the store afterwards, the
ids claimed to `Running`, the records accepted by the pool, the ids
dead-lettered by the failed-to-submit sweep, and whether the tick panicked
(at the `.expect` inside the eligibility filter, before any store write). -/
structure TickResult : Type where
  db : List JobRecord
  claimed : List Int
  submitted : List JobRecord
  failed_to_submit : List Int
  panicked : Bool
deriving DecidableEq, Repr

/-- One iteration of the `job_collector` loop body from `init`: fetch up to
`BATCH_SIZE` waiting rows by ascending id; evaluate `should_run` on each
(`.expect` panics the thread if any evaluation errs, before the claim
update runs); bulk-claim the eligible ids to `Running`; submit every fetched
record, collecting synchronous rejections; bulk-update the rejected ids to
`Dead`. Completion callbacks run later, asynchronously (see `on_complete`). -/
def collectorTick (w : Worker) (db : List JobRecord) : TickResult :=
  if (fetchWaiting db).any (shouldRunErrs w) then
    ⟨db, [], [], [], true⟩
  else
    ⟨setStatus (setStatus db (eligibleIds w db) JobStatus.running)
        (failedIds w db) JobStatus.dead,
      eligibleIds w db, submittedJobs w db, failedIds w db, false⟩

/-- The completion-callback body from the source (the closure passed to
`job_tick`), acting on the store: `JobInnerError` is only logged;
`JobPanicked` consults the contract but neither branch writes the store;
`DeserializeError` kills the record; `InvalidKind` hits `unreachable!()`
(modelled as `none`, a callback panic with no store write); `Ok` drops the
record. -/
def on_complete (db : List JobRecord) (job : JobRecord)
    (result : Except TError Unit) (execution_contract : ExecutionContract) :
    Option (List JobRecord) :=
  match result with
  | .error .jobInnerError => some db
  | .error .jobPanicked =>
    match execution_contract.panic with
    | .fail => some db
    | .retry _ => some db
  | .error .deserializeError => some (job.kill db)
  | .error .invalidKind => none
  | .ok _ => some (job.drop db)

/-- A store-writing event this module can perform: one collector tick, or one
completion callback (a panicking callback writes nothing). -/
inductive StoreOp : Type
  | tick (w : Worker)
  | complete (job : JobRecord) (result : Except TError Unit)
      (execution_contract : ExecutionContract)

/-- The store after one module event. -/
def applyOp (db : List JobRecord) : StoreOp → List JobRecord
  | .tick w => (collectorTick w db).db
  | .complete j res c => (on_complete db j res c).getD db

/-- The store after a sequence of module events. -/
def applyOps (db : List JobRecord) : List StoreOp → List JobRecord
  | [] => db
  | op :: ops => applyOps (applyOp db op) ops

/-- `post` was produced from `pre` without ever writing status `Waiting`:
every row of `post` is an untouched row of `pre` or has a non-`Waiting`
status. -/
def noWaitingWrite (pre post : List JobRecord) : Prop :=
  ∀ r ∈ post, r ∈ pre ∨ r.status ≠ JobStatus.waiting

/-! ## Basic properties of the store operations -/

instance : IsTotal JobRecord (fun a b => a.id ≤ b.id) :=
  ⟨fun a b => Int.le_total a.id b.id⟩

instance : IsTrans JobRecord (fun a b => a.id ≤ b.id) :=
  ⟨fun _ _ _ h1 h2 => le_trans h1 h2⟩

theorem mem_fetchWaiting {db : List JobRecord} {r : JobRecord}
    (h : r ∈ fetchWaiting db) : r ∈ db ∧ r.status = JobStatus.waiting := by
  have h1 := List.take_subset BATCH_SIZE.toNat _ h
  rw [List.mem_insertionSort] at h1
  have h2 := List.mem_filter.1 h1
  exact ⟨h2.1, of_decide_eq_true h2.2⟩

theorem fetchWaiting_eq_nil {db : List JobRecord}
    (h : ∀ r ∈ db, r.status ≠ JobStatus.waiting) : fetchWaiting db = [] := by
  have hf : db.filter (fun r => decide (r.status = JobStatus.waiting)) = [] := by
    rw [List.filter_eq_nil_iff]
    intro a ha
    simpa using h a ha
  simp [fetchWaiting, hf, List.insertionSort]

theorem setStatus_mem {db : List JobRecord} {ids : List Int} {s : JobStatus}
    {r' : JobRecord} (h : r' ∈ setStatus db ids s) : r' ∈ db ∨ r'.status = s := by
  rcases List.mem_map.1 h with ⟨r, hr, rfl⟩
  by_cases hid : r.id ∈ ids
  · right
    simp [hid]
  · left
    simpa [hid] using hr

theorem setStatus_map_id (db : List JobRecord) (ids : List Int) (s : JobStatus) :
    (setStatus db ids s).map (fun r => r.id) = db.map (fun r => r.id) := by
  induction db with
  | nil => rfl
  | cons a l ih =>
    simp only [setStatus, List.map_cons] at ih ⊢
    rw [ih]
    by_cases hid : a.id ∈ ids <;> simp [hid]

theorem setStatus_nil (db : List JobRecord) (s : JobStatus) :
    setStatus db [] s = db := by
  simp [setStatus]

theorem kill_mem {j : JobRecord} {db : List JobRecord} {r' : JobRecord}
    (h : r' ∈ j.kill db) : r' ∈ db ∨ r'.status = JobStatus.dead := by
  simp only [JobRecord.kill] at h
  rcases List.mem_map.1 h with ⟨r, hr, rfl⟩
  by_cases hid : r.id = j.id
  · right
    simp [hid]
  · left
    simpa [hid] using hr

theorem kill_id_dead {j : JobRecord} {db : List JobRecord} {r' : JobRecord}
    (h : r' ∈ j.kill db) (hid : r'.id = j.id) : r'.status = JobStatus.dead := by
  simp only [JobRecord.kill] at h
  rcases List.mem_map.1 h with ⟨r, hr, rfl⟩
  by_cases h2 : r.id = j.id
  · simp [h2]
  · simp [h2] at hid

theorem kill_map_id (j : JobRecord) (db : List JobRecord) :
    (j.kill db).map (fun r => r.id) = db.map (fun r => r.id) := by
  induction db with
  | nil => rfl
  | cons a l ih =>
    simp only [JobRecord.kill, List.map_cons] at ih ⊢
    rw [ih]
    by_cases hid : a.id = j.id <;> simp [hid]

theorem drop_subset (j : JobRecord) (db : List JobRecord) : j.drop db ⊆ db :=
  List.filter_subset' db

theorem drop_id_not_mem (j : JobRecord) (db : List JobRecord) :
    j.id ∉ (j.drop db).map (fun r => r.id) := by
  intro h
  rcases List.mem_map.1 h with ⟨r, hr, hid⟩
  have h2 := (List.mem_filter.1 hr).2
  exact absurd hid (of_decide_eq_true h2)

theorem on_complete_cases {db : List JobRecord} {job : JobRecord}
    {res : Except TError Unit} {c : ExecutionContract} {out : List JobRecord}
    (h : on_complete db job res c = some out) :
    out = db ∨ out = job.kill db ∨ out = job.drop db := by
  obtain ⟨p⟩ := c
  cases res with
  | ok u =>
    simp [on_complete] at h
    exact Or.inr (Or.inr h.symm)
  | error e =>
    cases e with
    | invalidKind => simp [on_complete] at h
    | deserializeError =>
      simp [on_complete] at h
      exact Or.inr (Or.inl h.symm)
    | jobInnerError =>
      simp [on_complete] at h
      exact Or.inl h.symm
    | jobPanicked =>
      cases p <;> simp [on_complete] at h <;> exact Or.inl h.symm

theorem collectorTick_db (w : Worker) (db : List JobRecord) :
    (collectorTick w db).db = db ∨
    (collectorTick w db).db =
      setStatus (setStatus db (eligibleIds w db) JobStatus.running)
        (failedIds w db) JobStatus.dead := by
  unfold collectorTick
  split
  · exact Or.inl rfl
  · exact Or.inr rfl

theorem collectorTick_map_id (w : Worker) (db : List JobRecord) :
    (collectorTick w db).db.map (fun r => r.id) = db.map (fun r => r.id) := by
  rcases collectorTick_db w db with h | h <;> rw [h]
  rw [setStatus_map_id, setStatus_map_id]

/-! ## The no-Waiting-write invariant -/

theorem noWaitingWrite_refl (db : List JobRecord) : noWaitingWrite db db :=
  fun _ hr => Or.inl hr

theorem noWaitingWrite_trans {a b c : List JobRecord}
    (h1 : noWaitingWrite a b) (h2 : noWaitingWrite b c) : noWaitingWrite a c := by
  intro r hr
  rcases h2 r hr with h | h
  · exact h1 r h
  · exact Or.inr h

theorem noWaitingWrite_setStatus {db : List JobRecord} {ids : List Int}
    {s : JobStatus} (hs : s ≠ JobStatus.waiting) :
    noWaitingWrite db (setStatus db ids s) := by
  intro r hr
  rcases setStatus_mem hr with h | h
  · exact Or.inl h
  · exact Or.inr (h ▸ hs)

theorem noWaitingWrite_tick (w : Worker) (db : List JobRecord) :
    noWaitingWrite db (collectorTick w db).db := by
  rcases collectorTick_db w db with h | h <;> rw [h]
  · exact noWaitingWrite_refl db
  · exact noWaitingWrite_trans (noWaitingWrite_setStatus (by decide))
      (noWaitingWrite_setStatus (by decide))

theorem noWaitingWrite_on_complete {db : List JobRecord} {job : JobRecord}
    {res : Except TError Unit} {c : ExecutionContract} {out : List JobRecord}
    (h : on_complete db job res c = some out) : noWaitingWrite db out := by
  rcases on_complete_cases h with rfl | rfl | rfl
  · exact noWaitingWrite_refl _
  · intro r hr
    rcases kill_mem hr with h2 | h2
    · exact Or.inl h2
    · exact Or.inr (by rw [h2]; decide)
  · intro r hr
    exact Or.inl (drop_subset _ _ hr)

theorem noWaitingWrite_applyOp (db : List JobRecord) (op : StoreOp) :
    noWaitingWrite db (applyOp db op) := by
  cases op with
  | tick w => exact noWaitingWrite_tick w db
  | complete j res c =>
    show noWaitingWrite db ((on_complete db j res c).getD db)
    cases h : on_complete db j res c with
    | none => exact noWaitingWrite_refl db
    | some out => exact noWaitingWrite_on_complete h

theorem noWaitingWrite_applyOps (db : List JobRecord) (ops : List StoreOp) :
    noWaitingWrite db (applyOps db ops) := by
  induction ops generalizing db with
  | nil => exact noWaitingWrite_refl db
  | cons op ops ih =>
    exact noWaitingWrite_trans (noWaitingWrite_applyOp db op) (ih (applyOp db op))


/-! ## Id preservation: the module never inserts rows -/

theorem applyOp_ids_subset (db : List JobRecord) (op : StoreOp) :
    (applyOp db op).map (fun r => r.id) ⊆ db.map (fun r => r.id) := by
  cases op with
  | tick w =>
    rw [show applyOp db (StoreOp.tick w) = (collectorTick w db).db from rfl,
      collectorTick_map_id]
    exact fun i hi => hi
  | complete j res c =>
    show ((on_complete db j res c).getD db).map (fun r => r.id) ⊆ _
    cases h : on_complete db j res c with
    | none => exact fun i hi => hi
    | some out =>
      show out.map (fun r => r.id) ⊆ _
      rcases on_complete_cases h with rfl | rfl | rfl
      · exact fun i hi => hi
      · rw [kill_map_id]
        exact fun i hi => hi
      · exact List.map_subset _ (drop_subset j db)

theorem applyOps_ids_subset (db : List JobRecord) (ops : List StoreOp) :
    (applyOps db ops).map (fun r => r.id) ⊆ db.map (fun r => r.id) := by
  induction ops generalizing db with
  | nil => exact fun i hi => hi
  | cons op ops ih =>
    exact fun i hi => applyOp_ids_subset db op (ih (applyOp db op) hi)

theorem execResult_ne_invalidKind (b : JobBehavior) (data : String) :
    execResult b data ≠ Except.error TError.invalidKind := by
  unfold execResult
  split
  · split <;> simp
  · simp

theorem drop_mem {j : JobRecord} {db : List JobRecord} {r' : JobRecord}
    (h : r' ∈ j.drop db) : r' ∈ db :=
  drop_subset j db h

/-! ## Concrete fixtures

A one-entry registry mirroring the source's `worker.register_job::<TestJob>()`
(kind "test_job", `should_run` constantly true, `perform` returning `Ok(())`);
a payload decodes iff it is the string "good". -/

def bEx : JobBehavior :=
  ⟨fun d => d == "good", fun _ => true, fun _ => PerformOutcome.ok,
    ⟨PanicBehavior.fail⟩⟩

def wEx : Worker := ⟨[("test_job", bEx)]⟩

def recRunning : JobRecord := ⟨1, "test_job", "good", JobStatus.running⟩

def recUnknown : JobRecord := ⟨1, "unknown_kind", "good", JobStatus.waiting⟩

def recBad : JobRecord := ⟨1, "test_job", "bad", JobStatus.waiting⟩

/-! ## The claims -/

/-- C1 counterexample: a job that panicked during `perform()` under contract
`Fail`, whose record was claimed `Running` — the outcome handling returns the
store unchanged, the record's status is still `Running`, and `Running` is not
`Dead`: the claimed terminal `Dead` transition does not happen. -/
theorem panicked_fail_record_stays_running :
    on_complete [recRunning] recRunning (.error .jobPanicked)
      ⟨PanicBehavior.fail⟩ = some [recRunning] ∧
    recRunning.status = JobStatus.running ∧
    JobStatus.running ≠ JobStatus.dead :=
  ⟨rfl, rfl, by decide⟩

/-- C1 (amended): for every job that panics during `perform()` with execution
contract `Fail`, the outcome handling performs no store write: the `Fail` arm
of the completion callback is empty, so the panicked job's record keeps the
status it already had (`Running` after the claim step) and is never
transitioned to `Dead` by this module. -/
theorem panicked_fail_no_store_write (db : List JobRecord) (job : JobRecord) :
    on_complete db job (.error .jobPanicked) ⟨PanicBehavior.fail⟩ = some db :=
  rfl

/-- C2, the code evaluated at the failing input: one `Waiting` record of an
unregistered kind. `Worker::should_run` returns `Err(InvalidKind)` for it, so
the `.expect` inside the eligibility filter panics the collector thread: the
tick aborts before any store write, the record is never bulk-updated to
`Dead`, stays `Waiting`, and nothing is claimed or submitted. -/
theorem unregistered_kind_tick_panics :
    collectorTick wEx [recUnknown] = ⟨[recUnknown], [], [], [], true⟩ ∧
    recUnknown.status = JobStatus.waiting := by
  decide

/-- C3 counterexample: a fetched `Waiting` record of a registered kind whose
payload does not deserialize. The claim says it is excluded from the claim
step but still submitted to the pool; in fact the tick panics at the
eligibility filter's `.expect`, so nothing at all is claimed or submitted and
the store is untouched. -/
theorem should_run_error_not_submitted :
    (collectorTick wEx [recBad]).claimed = [] ∧
    (collectorTick wEx [recBad]).submitted = [] ∧
    (collectorTick wEx [recBad]).panicked = true ∧
    (collectorTick wEx [recBad]).db = [recBad] := by
  decide

/-- C3 (amended): every fetched record whose payload fails to deserialize or
whose kind is unregistered makes `Worker::should_run` return an `Err`, and
the `.expect` on that result panics the tick before the claim step: the
record is excluded from the `Waiting → Running` bulk update, but it is NOT
submitted in step 4 — the tick aborts with no claim, no submission, no
failed-to-submit id and no store change. -/
theorem should_run_error_tick_aborts (w : Worker) (db : List JobRecord)
    (r : JobRecord) (h1 : r ∈ fetchWaiting db)
    (h2 : shouldRunErrs w r = true) :
    collectorTick w db = ⟨db, [], [], [], true⟩ := by
  have ha : (fetchWaiting db).any (shouldRunErrs w) = true :=
    List.any_eq_true.2 ⟨r, h1, h2⟩
  simp [collectorTick, ha]

/-- C3 witness: the amended theorem applied to the concrete undecodable
record. -/
theorem should_run_error_tick_aborts_witness :
    collectorTick wEx [recBad] = ⟨[recBad], [], [], [], true⟩ :=
  should_run_error_tick_aborts wEx [recBad] recBad (by decide) (by decide)

/-- C4: a submitted job whose execution completes with `DeserializeError` is
immediately and unconditionally killed — the callback transitions the record
to terminal `Dead` (via `JobRecord::kill`) for every execution contract, and
after any further sequence of module operations no record with that id is
ever `Waiting` again. -/
theorem deserialize_error_always_dead (db : List JobRecord) (job : JobRecord)
    (execution_contract : ExecutionContract) (ops : List StoreOp) :
    on_complete db job (.error .deserializeError) execution_contract =
      some (job.kill db) ∧
    (∀ r ∈ job.kill db, r.id = job.id → r.status = JobStatus.dead) ∧
    (∀ r ∈ applyOps (job.kill db) ops, r.id = job.id →
      r.status ≠ JobStatus.waiting) := by
  refine ⟨rfl, fun r hr hid => kill_id_dead hr hid, fun r hr hid => ?_⟩
  rcases noWaitingWrite_applyOps (job.kill db) ops r hr with h | h
  · rw [kill_id_dead h hid]
    decide
  · exact h

/-- C5: a submitted job whose execution completes with `Ok(())` has its record
deleted from the store by the callback (`JobRecord::drop`; success is row
absence, not a status), and after any further sequence of module operations
the deleted id is never returned by a fetch. -/
theorem success_deletes_and_never_refetched (db : List JobRecord)
    (job : JobRecord) (execution_contract : ExecutionContract)
    (ops : List StoreOp) :
    on_complete db job (.ok ()) execution_contract = some (job.drop db) ∧
    job.id ∉ (fetchWaiting (applyOps (job.drop db) ops)).map (fun r => r.id) := by
  refine ⟨rfl, fun hmem => ?_⟩
  rcases List.mem_map.1 hmem with ⟨r, hr, hid⟩
  have h1 : r ∈ applyOps (job.drop db) ops := (mem_fetchWaiting hr).1
  have h2 : r.id ∈ (applyOps (job.drop db) ops).map (fun r => r.id) :=
    List.mem_map_of_mem _ h1
  have h3 := applyOps_ids_subset (job.drop db) ops h2
  rw [hid] at h3
  exact drop_id_not_mem job db h3

/-- C6: a submitted job whose execution completes with `JobInnerError` causes
no store state change at all — the callback only logs and returns the store
exactly as it was (statuses, payloads and presence all unchanged). -/
theorem inner_error_no_state_change (db : List JobRecord) (job : JobRecord)
    (execution_contract : ExecutionContract) :
    on_complete db job (.error .jobInnerError) execution_contract = some db :=
  rfl

/-- C7: on every tick the fetch step returns only records whose status is
`Waiting`, returns at most `BATCH_SIZE` = 10 of them, and returns them
ordered by ascending id. -/
theorem fetch_only_waiting_bounded_ascending (db : List JobRecord) :
    (∀ r ∈ fetchWaiting db, r.status = JobStatus.waiting) ∧
    (fetchWaiting db).length ≤ 10 ∧
    List.Sorted (fun a b => a.id ≤ b.id) (fetchWaiting db) := by
  refine ⟨fun r hr => (mem_fetchWaiting hr).2, ?_, ?_⟩
  · unfold fetchWaiting
    exact le_trans (List.length_take_le _ _) (by decide)
  · unfold fetchWaiting
    exact List.Pairwise.sublist (List.take_sublist _ _)
      (List.sorted_insertionSort _ _)

/-- C8: `job_tick` rejects unregistered kinds synchronously, so any job it
accepts is registered and the result eventually delivered to the completion
callback is never `InvalidKind` — the `unreachable!()` arm of the callback is
indeed unreachable. -/
theorem invalid_kind_callback_unreachable (w : Worker) (kind data : String)
    (res : Except TError Unit) (execution_contract : ExecutionContract)
    (h : w.job_tick kind data = .ok (res, execution_contract)) :
    res ≠ Except.error TError.invalidKind := by
  unfold Worker.job_tick at h
  cases hl : w.lookup kind with
  | none =>
    rw [hl] at h
    exact Except.noConfusion h
  | some b =>
    rw [hl] at h
    injection h with h1
    injection h1 with h2 h3
    rw [← h2]
    exact execResult_ne_invalidKind b data

/-- C8 witness: the theorem applied to the concrete registered job. -/
theorem invalid_kind_callback_unreachable_witness :
    (Except.ok () : Except TError Unit) ≠ Except.error TError.invalidKind :=
  invalid_kind_callback_unreachable wEx "test_job" "good" (Except.ok ())
    ⟨PanicBehavior.fail⟩ rfl

/-- C9: running one collector tick on a store with no `Waiting` record is a
no-op on the Queue Store — the store is returned unchanged (no status change,
no deletion), nothing is claimed or submitted, and the tick does not panic. -/
theorem empty_waiting_tick_noop (w : Worker) (db : List JobRecord)
    (h : ∀ r ∈ db, r.status ≠ JobStatus.waiting) :
    collectorTick w db = ⟨db, [], [], [], false⟩ := by
  have hf := fetchWaiting_eq_nil h
  simp [collectorTick, eligibleIds, failedIds, submittedJobs, hf, setStatus_nil]

/-- C9 witness: the theorem applied to a store holding one `Running` record. -/
theorem empty_waiting_tick_noop_witness :
    collectorTick wEx [recRunning] = ⟨[recRunning], [], [], [], false⟩ :=
  empty_waiting_tick_noop wEx [recRunning] (by decide)

/-- C10: no operation of this module ever writes status `Waiting`: every
record in the store after a tick, after a completion callback, or after any
sequence of module operations is either an untouched pre-existing record or
has a non-`Waiting` status (the writes are only `Running`, `Dead`, or a
deletion); in particular the `Retry` panic branch performs no store write at
all, so `Running → Waiting` never occurs. -/
theorem no_waiting_status_write (w : Worker) (db : List JobRecord)
    (job : JobRecord) (result : Except TError Unit)
    (execution_contract : ExecutionContract) (strategy : Nat)
    (ops : List StoreOp) :
    noWaitingWrite db (collectorTick w db).db ∧
    (∀ out, on_complete db job result execution_contract = some out →
      noWaitingWrite db out) ∧
    on_complete db job (.error .jobPanicked) ⟨PanicBehavior.retry strategy⟩ =
      some db ∧
    noWaitingWrite db (applyOps db ops) :=
  ⟨noWaitingWrite_tick w db, fun _ h => noWaitingWrite_on_complete h, rfl,
    noWaitingWrite_applyOps db ops⟩
